import Mathlib

/-!
Verification of the screen-geometry calculator (`screen_calc.py`).

The Python class `Screen` validates five construction parameters and exposes
derived read-only quantities (physical size, pixel density, field of view,
pixels per degree).  The embedding below translates the source directly:

* machine reals become `ℝ`; the resolution entries, validated by the source
  to be integers, become `ℤ`;
* the raw `resolution` argument of the constructor becomes a `List ℚ`, so
  that the length check and the integrality check (`isinstance(x, int)`,
  modelled as denominator 1) of the source are expressible;
* every Python `/` becomes `div?` (Python raises `ZeroDivisionError` on a
  zero denominator), `math.sqrt` becomes `sqrt?` (raises on negative input),
  and an accessor that can raise is `Option`-valued;
* Python `round` is round-half-to-even, modelled by `pyRound`;
* `(ratio ** 2 + 1) ** 0.5` is `Real.sqrt (ratio ^ 2 + 1)` (the base is
  always ≥ 1, where `** 0.5` agrees with the real square root).
-/

/-- Python `round`: round half to even (banker's rounding), otherwise to the
nearest integer. -/
noncomputable def pyRound (x : ℝ) : ℤ :=
  if Int.fract x = 1 / 2 then (if 2 ∣ ⌊x⌋ then ⌊x⌋ else ⌊x⌋ + 1) else round x

/-- Python float division `a / b`, which raises `ZeroDivisionError` when the
denominator is zero. -/
noncomputable def div? (a b : ℝ) : Option ℝ := if b = 0 then none else some (a / b)

/-- Python `math.sqrt`, which raises `ValueError` on negative input. -/
noncomputable def sqrt? (x : ℝ) : Option ℝ := if x < 0 then none else some (Real.sqrt x)

/-- Python `math.degrees`: radians to degrees. -/
noncomputable def degrees (x : ℝ) : ℝ := x * (180 / Real.pi)

/-- The one error kind of the module (`ValueError` in the source, named
`InvalidParameter` by the specification): which field failed validation. -/
inductive InvalidParameter where
  | diagonal
  | resolution
  | distance
  | curvature
  | scaling
deriving DecidableEq

/-- The validated, immutable entity: exactly the five fields stored by
`Screen.__init__` after validation. -/
structure Screen where
  diagonal : ℝ
  resolution : ℤ × ℤ
  distance : ℝ
  curvature : Option ℝ
  scaling : ℝ

/-- The invariants §3 of the specification states for a constructed value:
what `Screen.__init__` has checked when it returns. -/
def Screen.Valid (s : Screen) : Prop :=
  0 < s.diagonal ∧ 0 < s.resolution.1 ∧ 0 < s.resolution.2 ∧ 0 < s.distance ∧
    (∀ c ∈ s.curvature, 0 ≤ c) ∧ 0 < s.scaling

open Classical in
/-- `Screen.__init__`: the five validation rules in source order, then the
five fields are stored.  A raised `ValueError` is the `.error` case. -/
noncomputable def Screen.mk? (diagonal : ℝ) (resolution : List ℚ) (distance : ℝ)
    (curvature : Option ℝ) (scaling : ℝ) : Except InvalidParameter Screen :=
  if diagonal ≤ 0 then .error .diagonal
  else if ¬(resolution.length = 2 ∧ ∀ x ∈ resolution, x.den = 1 ∧ 0 < x) then
    .error .resolution
  else if distance ≤ 0 then .error .distance
  else if ∃ c ∈ curvature, c < 0 then .error .curvature
  else if scaling ≤ 0 then .error .scaling
  else .ok
    { diagonal := diagonal
      resolution := (resolution.headI.num, resolution.tail.headI.num)
      distance := distance
      curvature := curvature
      scaling := scaling }

/-- `Screen.width`: `ratio = res[0]/res[1]`, `height = diagonal / sqrt(ratio²+1) * 25.4`,
`width = ratio * height` (mm). -/
noncomputable def Screen.width? (s : Screen) : Option ℝ := do
  let ratio ← div? (s.resolution.1 : ℝ) (s.resolution.2 : ℝ)
  let h ← div? s.diagonal (Real.sqrt (ratio ^ 2 + 1))
  return ratio * (h * 25.4)

/-- `Screen.height`: `diagonal / sqrt(ratio²+1) * 25.4` (mm). -/
noncomputable def Screen.height? (s : Screen) : Option ℝ := do
  let ratio ← div? (s.resolution.1 : ℝ) (s.resolution.2 : ℝ)
  let h ← div? s.diagonal (Real.sqrt (ratio ^ 2 + 1))
  return h * 25.4

/-- `Screen.size`: the pair `(width, height)`. -/
noncomputable def Screen.size? (s : Screen) : Option (ℝ × ℝ) := do
  let w ← s.width?
  let h ← s.height?
  return (w, h)

/-- `Screen.ppi`: `round(res[0] / (width / 25.4))`. -/
noncomputable def Screen.ppi? (s : Screen) : Option ℤ := do
  let w ← s.width?
  let winches ← div? w 25.4
  let p ← div? (s.resolution.1 : ℝ) winches
  return pyRound p

/-- `Screen.ppi_scaled`: `round(ppi / scaling)`. -/
noncomputable def Screen.ppi_scaled? (s : Screen) : Option ℤ := do
  let p ← s.ppi?
  let q ← div? (p : ℝ) s.scaling
  return pyRound q

/-- `Screen.pixel_size`: `25.4 / ppi` (mm); raises when `ppi` rounded to 0. -/
noncomputable def Screen.pixel_size? (s : Screen) : Option ℝ := do
  let p ← s.ppi?
  div? 25.4 (p : ℝ)

/-- `Screen.fov_horizontal` (degrees).  Flat: `degrees(2*atan(width/2/distance))`.
Curved: the arc construction of the source, with a negative result normalised
by adding 360. -/
noncomputable def Screen.fov_horizontal? (s : Screen) : Option ℝ :=
  match s.curvature with
  | none => do
      let w ← s.width?
      let a ← div? w 2
      let t ← div? a s.distance
      return degrees (2 * Real.arctan t)
  | some c => do
      let w ← s.width?
      let arc_angle ← div? w c
      let half ← div? arc_angle 2
      let arc_width := 2 * c * Real.sin half
      let arc_depth := c * (1 - Real.cos half)
      let arc_end_dist := s.distance - arc_depth
      let aw ← div? arc_width 2
      let t ← div? aw arc_end_dist
      let angle := degrees (2 * Real.arctan t)
      return if 0 ≤ angle then angle else 360 + angle

/-- `Screen.fov_vertical` (degrees): `degrees(2*atan(height/2/distance))`. -/
noncomputable def Screen.fov_vertical? (s : Screen) : Option ℝ := do
  let h ← s.height?
  let a ← div? h 2
  let t ← div? a s.distance
  return degrees (2 * Real.arctan t)

/-- `Screen.ppd`: `1 / degrees(atan(pixel_size / distance))`. -/
noncomputable def Screen.ppd? (s : Screen) : Option ℝ := do
  let ps ← s.pixel_size?
  let t ← div? ps s.distance
  div? 1 (degrees (Real.arctan t))

/-- `Screen.ppd_edge`: as `ppd` but measured at the screen edge, whose
distance is `sqrt(distance² + (width/2)²)` for a flat screen and is obtained
from the arc construction for a curved one. -/
noncomputable def Screen.ppd_edge? (s : Screen) : Option ℝ :=
  match s.curvature with
  | none => do
      let w ← s.width?
      let a ← div? w 2
      let de ← sqrt? (s.distance ^ 2 + a ^ 2)
      let ps ← s.pixel_size?
      let t ← div? ps de
      div? 1 (degrees (Real.arctan t))
  | some c => do
      let w ← s.width?
      let arc_angle ← div? w c
      let half ← div? arc_angle 2
      let arc_width := 2 * c * Real.sin half
      let arc_depth := c * (1 - Real.cos half)
      let arc_end_dist := s.distance - arc_depth
      let aw ← div? arc_width 2
      let de ← sqrt? (arc_end_dist ^ 2 + aw ^ 2)
      let ps ← s.pixel_size?
      let t ← div? ps de
      div? 1 (degrees (Real.arctan t))

/-- `Screen.resolution_scaled`: each axis is `round(axis / scaling)`,
rounded independently. -/
noncomputable def Screen.resolution_scaled? (s : Screen) : Option (ℤ × ℤ) := do
  let a ← div? (s.resolution.1 : ℝ) s.scaling
  let b ← div? (s.resolution.2 : ℝ) s.scaling
  return (pyRound a, pyRound b)

/-! ### The closed forms the specification states (§4.2)

These definitions follow the specification's words; the theorems below
compare the source translation against them. -/

/-- Spec §4.2: `ratio = resolution.width / resolution.height` (real division). -/
noncomputable def ratioSpec (s : Screen) : ℝ := (s.resolution.1 : ℝ) / (s.resolution.2 : ℝ)

/-- Spec §4.2: `height = diagonalInches / sqrt(ratio² + 1) * 25.4` (mm). -/
noncomputable def heightSpec (s : Screen) : ℝ :=
  s.diagonal / Real.sqrt (ratioSpec s ^ 2 + 1) * 25.4

/-- Spec §4.2: `width = ratio * height` (mm). -/
noncomputable def widthSpec (s : Screen) : ℝ := ratioSpec s * heightSpec s

/-- Spec §4.2, flat `fovHorizontal`: `degrees(2 * atan(w/2 / d))`. -/
noncomputable def fovFlatSpec (w d : ℝ) : ℝ := degrees (2 * Real.arctan (w / 2 / d))

/-- Spec §4.2 step 1: `arcAngle = width / curvature` (radians). -/
noncomputable def arcAngleSpec (s : Screen) (c : ℝ) : ℝ := widthSpec s / c

/-- Spec §4.2 step 2: `arcWidth = 2 * curvature * sin(arcAngle / 2)`. -/
noncomputable def arcWidthSpec (s : Screen) (c : ℝ) : ℝ :=
  2 * c * Real.sin (arcAngleSpec s c / 2)

/-- Spec §4.2 step 3: `arcDepth = curvature * (1 - cos(arcAngle / 2))`. -/
noncomputable def arcDepthSpec (s : Screen) (c : ℝ) : ℝ :=
  c * (1 - Real.cos (arcAngleSpec s c / 2))

/-- Spec §4.2 step 4: `arcEndDistance = distance - arcDepth`. -/
noncomputable def arcEndDistanceSpec (s : Screen) (c : ℝ) : ℝ :=
  s.distance - arcDepthSpec s c

/-- Spec §4.2 step 5: curved `fovHorizontal`, with 360° added when the raw
angle is negative. -/
noncomputable def fovCurvedSpec (s : Screen) (c : ℝ) : ℝ :=
  let angle := degrees (2 * Real.arctan (arcWidthSpec s c / 2 / arcEndDistanceSpec s c))
  if 0 ≤ angle then angle else 360 + angle

/-! ### Concrete screens used by the witnesses and counterexamples -/

/-- The 27-inch 1920×1080 flat panel at 600 mm, scaling 1 (§8's scenario). -/
noncomputable def screenA : Screen :=
  { diagonal := 27, resolution := (1920, 1080), distance := 600, curvature := none,
    scaling := 1 }

/-- A valid but extreme flat screen: 100-inch diagonal at 1×1 resolution,
whose pixel density rounds to 0. -/
noncomputable def screenB : Screen :=
  { diagonal := 100, resolution := (1, 1), distance := 600, curvature := none,
    scaling := 1 }

/-- The curvature radius that folds `screenA` into a full circle
(`arcAngle = 2π`), a degenerate but valid curved configuration. -/
noncomputable def curvC : ℝ := widthSpec screenA / (2 * Real.pi)

/-- `screenA` bent with radius `curvC`: the arc closes into a full circle. -/
noncomputable def screenC : Screen :=
  { diagonal := 27, resolution := (1920, 1080), distance := 600,
    curvature := some curvC, scaling := 1 }

/-- `screenA` moved to 50 mm viewing distance. -/
noncomputable def screenD : Screen :=
  { diagonal := 27, resolution := (1920, 1080), distance := 50, curvature := none,
    scaling := 1 }

/-- `screenA` moved to 5000 mm viewing distance. -/
noncomputable def screenE : Screen :=
  { diagonal := 27, resolution := (1920, 1080), distance := 5000, curvature := none,
    scaling := 1 }

/-- `screenA` with display scaling 2 instead of 1. -/
noncomputable def screenF : Screen :=
  { diagonal := 27, resolution := (1920, 1080), distance := 600, curvature := none,
    scaling := 2 }

/-! ### Basic facts about the modelled primitives -/

theorem div?_of_ne (a : ℝ) {b : ℝ} (hb : b ≠ 0) : div? a b = some (a / b) := by
  simp [div?, hb]

theorem sqrt?_of_nonneg {x : ℝ} (hx : 0 ≤ x) : sqrt? x = some (Real.sqrt x) := by
  rw [sqrt?, if_neg (not_lt.mpr hx)]

theorem pyRound_intCast (n : ℤ) : pyRound (n : ℝ) = n := by
  norm_num [pyRound, Int.fract_intCast]

theorem pyRound_nonneg {x : ℝ} (hx : 0 ≤ x) : 0 ≤ pyRound x := by
  unfold pyRound
  have hf : (0 : ℤ) ≤ ⌊x⌋ := Int.floor_nonneg.mpr hx
  split_ifs with h1 h2
  · exact hf
  · omega
  · rw [round_eq]
    exact Int.floor_nonneg.mpr (by linarith)

theorem one_le_pyRound {x : ℝ} (hx : 1 ≤ x) : 1 ≤ pyRound x := by
  unfold pyRound
  have hf : (1 : ℤ) ≤ ⌊x⌋ := Int.le_floor.mpr (by exact_mod_cast hx)
  split_ifs with h1 h2
  · exact hf
  · omega
  · rw [round_eq]
    exact Int.le_floor.mpr (by push_cast; linarith)

theorem pyRound_eq_zero {x : ℝ} (h0 : 0 ≤ x) (h : x < 1 / 2) : pyRound x = 0 := by
  unfold pyRound
  rw [if_neg, round_eq, Int.floor_eq_zero_iff]
  · exact Set.mem_Ico.mpr ⟨by linarith, by linarith⟩
  · intro hfr
    rw [Int.fract_eq_self.mpr ⟨h0, by linarith⟩] at hfr
    linarith

theorem degrees_ne_zero {x : ℝ} (hx : x ≠ 0) : degrees x ≠ 0 :=
  mul_ne_zero hx (by positivity)

theorem degrees_pos {x : ℝ} (hx : 0 < x) : 0 < degrees x :=
  mul_pos hx (by positivity)

theorem degrees_lt_degrees {x y : ℝ} (h : x < y) : degrees x < degrees y :=
  mul_lt_mul_of_pos_right h (by positivity)

theorem arctan_pos_of_pos {x : ℝ} (hx : 0 < x) : 0 < Real.arctan x := by
  simpa [Real.arctan_zero] using Real.arctan_strictMono hx

/-! ### Consequences of validity and evaluation of the accessors -/

theorem sqrtRatio_pos (s : Screen) : 0 < Real.sqrt (ratioSpec s ^ 2 + 1) :=
  Real.sqrt_pos.mpr (by positivity)

theorem Screen.Valid.ratio_pos {s : Screen} (h : s.Valid) : 0 < ratioSpec s :=
  div_pos (by exact_mod_cast h.2.1) (by exact_mod_cast h.2.2.1)

theorem Screen.Valid.heightSpec_pos {s : Screen} (h : s.Valid) : 0 < heightSpec s :=
  mul_pos (div_pos h.1 (sqrtRatio_pos s)) (by norm_num)

theorem Screen.Valid.widthSpec_pos {s : Screen} (h : s.Valid) : 0 < widthSpec s :=
  mul_pos h.ratio_pos h.heightSpec_pos

theorem Screen.Valid.res2_ne {s : Screen} (h : s.Valid) : ((s.resolution.2 : ℝ)) ≠ 0 :=
  (by exact_mod_cast h.2.2.1 : (0 : ℝ) < (s.resolution.2 : ℝ)).ne'

theorem Screen.width?_eq {s : Screen} (h : s.Valid) : s.width? = some (widthSpec s) := by
  have hs : Real.sqrt (((s.resolution.1 : ℝ) / (s.resolution.2 : ℝ)) ^ 2 + 1) ≠ 0 :=
    (Real.sqrt_pos.mpr (by positivity)).ne'
  simp [Screen.width?, div?_of_ne _ h.res2_ne, div?_of_ne _ hs, widthSpec, heightSpec,
    ratioSpec]

theorem Screen.height?_eq {s : Screen} (h : s.Valid) : s.height? = some (heightSpec s) := by
  have hs : Real.sqrt (((s.resolution.1 : ℝ) / (s.resolution.2 : ℝ)) ^ 2 + 1) ≠ 0 :=
    (Real.sqrt_pos.mpr (by positivity)).ne'
  simp [Screen.height?, div?_of_ne _ h.res2_ne, div?_of_ne _ hs, heightSpec, ratioSpec]

theorem Screen.size?_eq {s : Screen} (h : s.Valid) :
    s.size? = some (widthSpec s, heightSpec s) := by
  simp [Screen.size?, s.width?_eq h, s.height?_eq h]

theorem Screen.ppi?_eq {s : Screen} (h : s.Valid) :
    s.ppi? = some (pyRound ((s.resolution.1 : ℝ) / (widthSpec s / 25.4))) := by
  have hw := h.widthSpec_pos
  simp [Screen.ppi?, s.width?_eq h, div?_of_ne _ (by norm_num : (25.4 : ℝ) ≠ 0),
    div?_of_ne _ (by positivity : widthSpec s / 25.4 ≠ 0)]

theorem Screen.ppi?_nonneg {s : Screen} (h : s.Valid) {p : ℤ} (hp : s.ppi? = some p) :
    0 ≤ p := by
  rw [s.ppi?_eq h, Option.some_inj] at hp
  subst hp
  have hw := h.widthSpec_pos
  have h1 : (0 : ℝ) < (s.resolution.1 : ℝ) := by exact_mod_cast h.2.1
  exact pyRound_nonneg (by positivity)

theorem Screen.pixel_size?_eq {s : Screen} {p : ℤ} (hp : s.ppi? = some p)
    (hp0 : p ≠ 0) : s.pixel_size? = some (25.4 / (p : ℝ)) := by
  simp [Screen.pixel_size?, hp, div?_of_ne _ (Int.cast_ne_zero.mpr hp0)]

theorem Screen.ppi_scaled?_eq {s : Screen} (h : s.Valid) {p : ℤ} (hp : s.ppi? = some p) :
    s.ppi_scaled? = some (pyRound ((p : ℝ) / s.scaling)) := by
  simp [Screen.ppi_scaled?, hp, div?_of_ne _ h.2.2.2.2.2.ne']

theorem Screen.fov_vertical?_eq {s : Screen} (h : s.Valid) :
    s.fov_vertical? = some (degrees (2 * Real.arctan (heightSpec s / 2 / s.distance))) := by
  simp [Screen.fov_vertical?, s.height?_eq h, div?_of_ne _ (by norm_num : (2 : ℝ) ≠ 0),
    div?_of_ne _ h.2.2.2.1.ne']

theorem Screen.fov_horizontal?_flat {s : Screen} (h : s.Valid) (hc : s.curvature = none) :
    s.fov_horizontal? = some (fovFlatSpec (widthSpec s) s.distance) := by
  simp [Screen.fov_horizontal?, hc, s.width?_eq h, div?_of_ne _ (by norm_num : (2 : ℝ) ≠ 0),
    div?_of_ne _ h.2.2.2.1.ne', fovFlatSpec]

theorem Screen.fov_horizontal?_curved {s : Screen} (h : s.Valid) {c : ℝ}
    (hc : s.curvature = some c) (hc0 : c ≠ 0) (haed : arcEndDistanceSpec s c ≠ 0) :
    s.fov_horizontal? = some (fovCurvedSpec s c) := by
  simp only [arcEndDistanceSpec, arcDepthSpec, arcAngleSpec] at haed
  simp [Screen.fov_horizontal?, hc, s.width?_eq h, div?_of_ne _ hc0,
    div?_of_ne _ (by norm_num : (2 : ℝ) ≠ 0), div?_of_ne _ haed, fovCurvedSpec,
    arcWidthSpec, arcDepthSpec, arcEndDistanceSpec, arcAngleSpec]

theorem Screen.ppd?_eq {s : Screen} (h : s.Valid) {p : ℤ} (hp : s.ppi? = some p)
    (hp0 : 0 < p) :
    s.ppd? = some (1 / degrees (Real.arctan (25.4 / (p : ℝ) / s.distance))) := by
  have hpr : (0 : ℝ) < (p : ℝ) := by exact_mod_cast hp0
  have hd := h.2.2.2.1
  have hang : degrees (Real.arctan (25.4 / (p : ℝ) / s.distance)) ≠ 0 :=
    (degrees_pos (arctan_pos_of_pos (by positivity))).ne'
  simp [Screen.ppd?, Screen.pixel_size?_eq hp hp0.ne', div?_of_ne _ hd.ne',
    div?_of_ne _ hang]

theorem Screen.ppd_edge?_flat {s : Screen} (h : s.Valid) (hc : s.curvature = none)
    {p : ℤ} (hp : s.ppi? = some p) (hp0 : 0 < p) :
    s.ppd_edge? = some (1 / degrees (Real.arctan (25.4 / (p : ℝ) /
      Real.sqrt (s.distance ^ 2 + (widthSpec s / 2) ^ 2)))) := by
  have hpr : (0 : ℝ) < (p : ℝ) := by exact_mod_cast hp0
  have hd := h.2.2.2.1
  have hde : (0 : ℝ) < Real.sqrt (s.distance ^ 2 + (widthSpec s / 2) ^ 2) :=
    Real.sqrt_pos.mpr (by positivity)
  have hang : degrees (Real.arctan (25.4 / (p : ℝ) /
      Real.sqrt (s.distance ^ 2 + (widthSpec s / 2) ^ 2))) ≠ 0 :=
    (degrees_pos (arctan_pos_of_pos (by positivity))).ne'
  simp [Screen.ppd_edge?, hc, s.width?_eq h, div?_of_ne _ (by norm_num : (2 : ℝ) ≠ 0),
    sqrt?_of_nonneg (by positivity : (0 : ℝ) ≤ s.distance ^ 2 + (widthSpec s / 2) ^ 2),
    Screen.pixel_size?_eq hp hp0.ne', div?_of_ne _ hde.ne', div?_of_ne _ hang]

theorem Screen.ppd_edge?_curved {s : Screen} (h : s.Valid) {c : ℝ}
    (hc : s.curvature = some c) (hc0 : c ≠ 0) (haed : arcEndDistanceSpec s c ≠ 0)
    {p : ℤ} (hp : s.ppi? = some p) (hp0 : 0 < p) :
    s.ppd_edge? = some (1 / degrees (Real.arctan (25.4 / (p : ℝ) /
      Real.sqrt (arcEndDistanceSpec s c ^ 2 + (arcWidthSpec s c / 2) ^ 2)))) := by
  have hpr : (0 : ℝ) < (p : ℝ) := by exact_mod_cast hp0
  have haed2 : 0 < arcEndDistanceSpec s c ^ 2 := by positivity
  have hde : (0 : ℝ) < Real.sqrt (arcEndDistanceSpec s c ^ 2 + (arcWidthSpec s c / 2) ^ 2) :=
    Real.sqrt_pos.mpr (by positivity)
  have hang : degrees (Real.arctan (25.4 / (p : ℝ) /
      Real.sqrt (arcEndDistanceSpec s c ^ 2 + (arcWidthSpec s c / 2) ^ 2))) ≠ 0 :=
    (degrees_pos (arctan_pos_of_pos (by positivity))).ne'
  simp only [arcEndDistanceSpec, arcDepthSpec, arcAngleSpec] at haed
  simp only [arcEndDistanceSpec, arcDepthSpec, arcWidthSpec, arcAngleSpec] at hde hang
  have hsq : (0 : ℝ) ≤ (s.distance - c * (1 - Real.cos (widthSpec s / c / 2))) ^ 2 +
      (2 * c * Real.sin (widthSpec s / c / 2) / 2) ^ 2 := by positivity
  simp [Screen.ppd_edge?, hc, s.width?_eq h, div?_of_ne _ hc0,
    div?_of_ne _ (by norm_num : (2 : ℝ) ≠ 0), div?_of_ne _ haed,
    sqrt?_of_nonneg hsq, Screen.pixel_size?_eq hp hp0.ne',
    div?_of_ne _ hde.ne', div?_of_ne _ hang, arcEndDistanceSpec, arcDepthSpec,
    arcWidthSpec, arcAngleSpec]

theorem Screen.resolution_scaled?_eq {s : Screen} (h : s.Valid) :
    s.resolution_scaled? = some (pyRound ((s.resolution.1 : ℝ) / s.scaling),
      pyRound ((s.resolution.2 : ℝ) / s.scaling)) := by
  simp [Screen.resolution_scaled?, div?_of_ne _ h.2.2.2.2.2.ne']

theorem screenA_valid : screenA.Valid := by
  refine ⟨by norm_num [screenA], by norm_num [screenA], by norm_num [screenA],
    by norm_num [screenA], ?_, by norm_num [screenA]⟩
  simp [screenA]

theorem sqrt337_bounds : 18.3575 < Real.sqrt 337 ∧ Real.sqrt 337 < 18.3576 := by
  constructor
  · rw [Real.lt_sqrt (by norm_num)]
    norm_num
  · rw [Real.sqrt_lt' (by norm_num)]
    norm_num

theorem sqrt337_pos : (0 : ℝ) < Real.sqrt 337 := Real.sqrt_pos.mpr (by norm_num)

theorem widthSpec_screenA : widthSpec screenA = 10972.8 / Real.sqrt 337 := by
  have h2 : Real.sqrt ((16 / 9 : ℝ) ^ 2 + 1) = Real.sqrt 337 / 9 := by
    rw [show ((16 / 9 : ℝ) ^ 2 + 1) = 337 / 9 ^ 2 by norm_num,
      Real.sqrt_div' 337 (by norm_num), Real.sqrt_sq (by norm_num : (0 : ℝ) ≤ 9)]
  have h1 : ratioSpec screenA = 16 / 9 := by norm_num [ratioSpec, screenA]
  have h0 : Real.sqrt 337 ≠ 0 := sqrt337_pos.ne'
  unfold widthSpec heightSpec
  rw [h1, h2, show screenA.diagonal = 27 from rfl]
  field_simp
  ring

theorem heightSpec_screenA : heightSpec screenA = 6172.2 / Real.sqrt 337 := by
  have h2 : Real.sqrt ((16 / 9 : ℝ) ^ 2 + 1) = Real.sqrt 337 / 9 := by
    rw [show ((16 / 9 : ℝ) ^ 2 + 1) = 337 / 9 ^ 2 by norm_num,
      Real.sqrt_div' 337 (by norm_num), Real.sqrt_sq (by norm_num : (0 : ℝ) ≤ 9)]
  have h1 : ratioSpec screenA = 16 / 9 := by norm_num [ratioSpec, screenA]
  have h0 : Real.sqrt 337 ≠ 0 := sqrt337_pos.ne'
  unfold heightSpec
  rw [h1, h2, show screenA.diagonal = 27 from rfl]
  field_simp
  ring

theorem widthSpec_screenA_bounds : 597.725 < widthSpec screenA ∧ widthSpec screenA < 597.729 := by
  obtain ⟨hlo, hhi⟩ := sqrt337_bounds
  rw [widthSpec_screenA]
  constructor
  · rw [lt_div_iff₀ sqrt337_pos]
    nlinarith
  · rw [div_lt_iff₀ sqrt337_pos]
    nlinarith

theorem heightSpec_screenA_bounds :
    336.220 < heightSpec screenA ∧ heightSpec screenA < 336.223 := by
  obtain ⟨hlo, hhi⟩ := sqrt337_bounds
  rw [heightSpec_screenA]
  constructor
  · rw [lt_div_iff₀ sqrt337_pos]
    nlinarith
  · rw [div_lt_iff₀ sqrt337_pos]
    nlinarith

theorem ppi_screenA : screenA.ppi? = some 82 := by
  rw [Screen.ppi?_eq screenA_valid]
  have hx : ((screenA.resolution.1 : ℤ) : ℝ) / (widthSpec screenA / 25.4) =
      40 / 9 * Real.sqrt 337 := by
    rw [widthSpec_screenA, show ((screenA.resolution.1 : ℤ) : ℝ) = 1920 by norm_num [screenA]]
    have h0 : Real.sqrt 337 ≠ 0 := sqrt337_pos.ne'
    field_simp
    ring
  rw [hx]
  obtain ⟨hlo, hhi⟩ := sqrt337_bounds
  have hxlo : (81.58 : ℝ) < 40 / 9 * Real.sqrt 337 := by nlinarith
  have hxhi : (40 / 9 : ℝ) * Real.sqrt 337 < 81.6 := by nlinarith
  have hfloor : ⌊(40 / 9 * Real.sqrt 337 : ℝ)⌋ = 81 := by
    rw [Int.floor_eq_iff]
    constructor <;> push_cast <;> linarith
  unfold pyRound
  rw [if_neg, round_eq, Option.some_inj]
  · rw [Int.floor_eq_iff]
    constructor <;> push_cast <;> linarith
  · rw [Int.fract, hfloor]
    intro hfr
    push_cast at hfr
    linarith


theorem screenB_valid : screenB.Valid := by
  refine ⟨by norm_num [screenB], by norm_num [screenB], by norm_num [screenB],
    by norm_num [screenB], ?_, by norm_num [screenB]⟩
  simp [screenB]

theorem mk?_screenB : Screen.mk? 100 [1, 1] 600 none 1 = .ok screenB := by
  have hres : ([1, 1] : List ℚ).length = 2 ∧ ∀ x ∈ ([1, 1] : List ℚ), x.den = 1 ∧ 0 < x :=
    ⟨rfl, by decide⟩
  rw [Screen.mk?, if_neg (by norm_num : ¬(100 : ℝ) ≤ 0), if_neg (not_not_intro hres),
    if_neg (by norm_num : ¬(600 : ℝ) ≤ 0), if_neg (by simp),
    if_neg (by norm_num : ¬(1 : ℝ) ≤ 0)]
  rfl

theorem sqrt2_pos : (0 : ℝ) < Real.sqrt 2 := Real.sqrt_pos.mpr (by norm_num)

theorem widthSpec_screenB : widthSpec screenB = 2540 / Real.sqrt 2 := by
  have h1 : ratioSpec screenB = 1 := by norm_num [ratioSpec, screenB]
  have h0 : Real.sqrt 2 ≠ 0 := sqrt2_pos.ne'
  unfold widthSpec heightSpec
  rw [h1, show screenB.diagonal = 100 from rfl]
  norm_num
  field_simp
  ring

theorem ppi_screenB : screenB.ppi? = some 0 := by
  rw [Screen.ppi?_eq screenB_valid]
  have h0 : Real.sqrt 2 ≠ 0 := sqrt2_pos.ne'
  have hx : ((screenB.resolution.1 : ℤ) : ℝ) / (widthSpec screenB / 25.4) =
      Real.sqrt 2 / 100 := by
    rw [widthSpec_screenB, show ((screenB.resolution.1 : ℤ) : ℝ) = 1 by norm_num [screenB]]
    field_simp
    ring
  rw [hx, Option.some_inj]
  have hlt : Real.sqrt 2 < 50 := by
    rw [Real.sqrt_lt' (by norm_num)]
    norm_num
  exact pyRound_eq_zero (by positivity) (by linarith)

theorem pixel_size_screenB : screenB.pixel_size? = none := by
  simp [Screen.pixel_size?, ppi_screenB, div?]


theorem curvC_pos : 0 < curvC := by
  have := screenA_valid.widthSpec_pos
  unfold curvC
  positivity

theorem curvC_lt : curvC < 100 := by
  have h3 := Real.pi_gt_three
  have hw := widthSpec_screenA_bounds.2
  unfold curvC
  rw [div_lt_iff₀ (by positivity)]
  nlinarith


theorem screenC_valid : screenC.Valid := by
  refine ⟨by norm_num [screenC], by norm_num [screenC], by norm_num [screenC],
    by norm_num [screenC], ?_, by norm_num [screenC]⟩
  intro c hc
  rw [show screenC.curvature = some curvC from rfl, Option.mem_def,
    Option.some_inj] at hc
  rw [← hc]
  exact curvC_pos.le

theorem arcAngle_screenC : arcAngleSpec screenC curvC = 2 * Real.pi := by
  have hw := screenA_valid.widthSpec_pos
  have hπ := Real.pi_pos
  unfold arcAngleSpec curvC
  rw [show widthSpec screenC = widthSpec screenA from rfl]
  field_simp

theorem arcDepth_screenC : arcDepthSpec screenC curvC = 2 * curvC := by
  unfold arcDepthSpec
  rw [arcAngle_screenC, show 2 * Real.pi / 2 = Real.pi by ring, Real.cos_pi]
  ring

theorem arcWidth_screenC : arcWidthSpec screenC curvC = 0 := by
  unfold arcWidthSpec
  rw [arcAngle_screenC, show 2 * Real.pi / 2 = Real.pi by ring, Real.sin_pi]
  ring

theorem arcEndDistance_screenC : arcEndDistanceSpec screenC curvC ≠ 0 := by
  unfold arcEndDistanceSpec
  rw [arcDepth_screenC, show screenC.distance = (600 : ℝ) from rfl]
  have := curvC_lt
  have := curvC_pos
  intro h
  linarith

theorem fov_screenC : screenC.fov_horizontal? = some 0 := by
  rw [Screen.fov_horizontal?_curved screenC_valid rfl curvC_pos.ne' arcEndDistance_screenC]
  unfold fovCurvedSpec
  rw [arcWidth_screenC]
  simp [degrees, Real.arctan_zero]

/-! ### The claims -/

/-- **C1.** Construction fails with an `InvalidParameter` error naming the offending
field if and only if a validation rule is violated — diagonal ≤ 0; resolution not
exactly two entries, or an entry non-integral or non-positive; distance ≤ 0;
curvature present and < 0; scaling ≤ 0 (checked in source order, so each error
names the first violated field) — and construction succeeds for every input
satisfying all rules (including curvature = 0 and curvature absent), yielding a
value holding exactly the five validated fields. -/
theorem C1_construction_validation (d : ℝ) (res : List ℚ) (dist : ℝ) (c : Option ℝ)
    (sc : ℝ) :
    (Screen.mk? d res dist c sc = .error .diagonal ↔ d ≤ 0) ∧
    (Screen.mk? d res dist c sc = .error .resolution ↔
      ¬d ≤ 0 ∧ ¬(res.length = 2 ∧ ∀ x ∈ res, x.den = 1 ∧ 0 < x)) ∧
    (Screen.mk? d res dist c sc = .error .distance ↔
      ¬d ≤ 0 ∧ (res.length = 2 ∧ ∀ x ∈ res, x.den = 1 ∧ 0 < x) ∧ dist ≤ 0) ∧
    (Screen.mk? d res dist c sc = .error .curvature ↔
      ¬d ≤ 0 ∧ (res.length = 2 ∧ ∀ x ∈ res, x.den = 1 ∧ 0 < x) ∧ ¬dist ≤ 0 ∧
        (∃ r ∈ c, r < 0)) ∧
    (Screen.mk? d res dist c sc = .error .scaling ↔
      ¬d ≤ 0 ∧ (res.length = 2 ∧ ∀ x ∈ res, x.den = 1 ∧ 0 < x) ∧ ¬dist ≤ 0 ∧
        ¬(∃ r ∈ c, r < 0) ∧ sc ≤ 0) ∧
    ((∃ s, Screen.mk? d res dist c sc = .ok s) ↔
      ¬d ≤ 0 ∧ (res.length = 2 ∧ ∀ x ∈ res, x.den = 1 ∧ 0 < x) ∧ ¬dist ≤ 0 ∧
        ¬(∃ r ∈ c, r < 0) ∧ ¬sc ≤ 0) ∧
    (∀ s, Screen.mk? d res dist c sc = .ok s →
      s.diagonal = d ∧ s.resolution = (res.headI.num, res.tail.headI.num) ∧
      s.distance = dist ∧ s.curvature = c ∧ s.scaling = sc) := by
  rw [Screen.mk?]
  split_ifs with h1 h2 h3 h4 h5 <;> simp_all

/-- **C2 (amended).** For every validly constructed screen: `width`, `height`,
`size`, `ppi`, `ppi_scaled`, `fov_vertical` and `resolution_scaled` always
evaluate; `pixel_size` and `ppd` evaluate whenever the rounded `ppi` is nonzero;
for a flat screen `fov_horizontal` always evaluates and `ppd_edge` evaluates
whenever `ppi` is nonzero; for strictly positive curvature both evaluate provided
additionally `distance ≠ arcDepth`; and at curvature = 0 exactly,
`fov_horizontal` and `ppd_edge` divide by zero in `arcAngle = width / curvature`
(the original claim is false without the `ppi ≠ 0` and `distance ≠ arcDepth`
provisos, see the counterexample). -/
theorem C2_accessor_evaluation (s : Screen) (h : s.Valid) :
    (∃ w, s.width? = some w) ∧ (∃ v, s.height? = some v) ∧ (∃ z, s.size? = some z) ∧
    (∃ p, s.ppi? = some p) ∧ (∃ q, s.ppi_scaled? = some q) ∧
    (∃ v, s.fov_vertical? = some v) ∧ (∃ r, s.resolution_scaled? = some r) ∧
    (s.ppi? ≠ some 0 → (∃ x, s.pixel_size? = some x) ∧ (∃ x, s.ppd? = some x)) ∧
    (s.curvature = none → (∃ x, s.fov_horizontal? = some x) ∧
      (s.ppi? ≠ some 0 → ∃ x, s.ppd_edge? = some x)) ∧
    (∀ c, s.curvature = some c → 0 < c → arcEndDistanceSpec s c ≠ 0 →
      (∃ x, s.fov_horizontal? = some x) ∧
      (s.ppi? ≠ some 0 → ∃ x, s.ppd_edge? = some x)) ∧
    (s.curvature = some 0 → s.fov_horizontal? = none ∧ s.ppd_edge? = none) := by
  obtain ⟨p, hp⟩ : ∃ p, s.ppi? = some p := ⟨_, s.ppi?_eq h⟩
  have hpos : ∀ _hne : s.ppi? ≠ some 0, 0 < p := fun hne =>
    lt_of_le_of_ne (s.ppi?_nonneg h hp) (Ne.symm fun h0 => hne (h0 ▸ hp))
  refine ⟨⟨_, s.width?_eq h⟩, ⟨_, s.height?_eq h⟩, ⟨_, s.size?_eq h⟩, ⟨_, hp⟩,
    ⟨_, s.ppi_scaled?_eq h hp⟩, ⟨_, s.fov_vertical?_eq h⟩,
    ⟨_, s.resolution_scaled?_eq h⟩, ?_, ?_, ?_, ?_⟩
  · intro hne
    have hp0 := hpos hne
    exact ⟨⟨_, Screen.pixel_size?_eq hp hp0.ne'⟩, ⟨_, s.ppd?_eq h hp hp0⟩⟩
  · intro hc
    refine ⟨⟨_, s.fov_horizontal?_flat h hc⟩, fun hne => ?_⟩
    exact ⟨_, s.ppd_edge?_flat h hc hp (hpos hne)⟩
  · intro c hc hc0 haed
    refine ⟨⟨_, s.fov_horizontal?_curved h hc hc0.ne' haed⟩, fun hne => ?_⟩
    exact ⟨_, s.ppd_edge?_curved h hc hc0.ne' haed hp (hpos hne)⟩
  · intro hc
    constructor
    · simp [Screen.fov_horizontal?, hc, s.width?_eq h, div?]
    · simp [Screen.ppd_edge?, hc, s.width?_eq h, div?]

/-- **C2 witness.** The amended safety statement evaluated on the 27-inch
scenario screen. -/
theorem C2_accessor_evaluation_witness :
    (∃ w, screenA.width? = some w) ∧ (∃ v, screenA.height? = some v) ∧
    (∃ z, screenA.size? = some z) ∧ (∃ p, screenA.ppi? = some p) ∧
    (∃ q, screenA.ppi_scaled? = some q) ∧ (∃ v, screenA.fov_vertical? = some v) ∧
    (∃ r, screenA.resolution_scaled? = some r) ∧
    (screenA.ppi? ≠ some 0 →
      (∃ x, screenA.pixel_size? = some x) ∧ (∃ x, screenA.ppd? = some x)) ∧
    (screenA.curvature = none → (∃ x, screenA.fov_horizontal? = some x) ∧
      (screenA.ppi? ≠ some 0 → ∃ x, screenA.ppd_edge? = some x)) ∧
    (∀ c, screenA.curvature = some c → 0 < c → arcEndDistanceSpec screenA c ≠ 0 →
      (∃ x, screenA.fov_horizontal? = some x) ∧
      (screenA.ppi? ≠ some 0 → ∃ x, screenA.ppd_edge? = some x)) ∧
    (screenA.curvature = some 0 →
      screenA.fov_horizontal? = none ∧ screenA.ppd_edge? = none) :=
  C2_accessor_evaluation screenA screenA_valid

/-- **C2 counterexample.** A validly constructed flat screen (curvature absent)
on which a derived accessor does raise: `Screen(diagonal=100, resolution=(1,1),
distance=600)` is accepted by validation, its pixel density rounds to `ppi = 0`,
and `pixel_size` then computes `25.4 / 0`, a `ZeroDivisionError`. -/
theorem C2_cex_pixel_size_raises :
    Screen.mk? 100 [1, 1] 600 none 1 = .ok screenB ∧ screenB.curvature = none ∧
      screenB.ppi? = some 0 ∧ screenB.pixel_size? = none :=
  ⟨mk?_screenB, rfl, ppi_screenB, pixel_size_screenB⟩

/-- **C3.** For every validly constructed screen, with `ratio` the real quotient
of the resolution entries, the derived height is `diagonal / sqrt(ratio²+1) * 25.4`
millimetres and the derived width is `ratio * height`; both are strictly positive,
and width equals height when the two resolution entries coincide. -/
theorem C3_width_height_formulas (s : Screen) (h : s.Valid) :
    s.height? = some (heightSpec s) ∧ s.width? = some (widthSpec s) ∧
    widthSpec s = ratioSpec s * heightSpec s ∧
    0 < heightSpec s ∧ 0 < widthSpec s ∧
    (s.resolution.1 = s.resolution.2 → widthSpec s = heightSpec s) := by
  refine ⟨s.height?_eq h, s.width?_eq h, rfl, h.heightSpec_pos, h.widthSpec_pos, ?_⟩
  intro hsq
  have h1 : ratioSpec s = 1 := by
    unfold ratioSpec
    rw [hsq]
    exact div_self h.res2_ne
  unfold widthSpec
  rw [h1, one_mul]

/-- **C3 witness.** The formulas evaluated on the 27-inch scenario screen. -/
theorem C3_width_height_formulas_witness :
    screenA.height? = some (heightSpec screenA) ∧
    screenA.width? = some (widthSpec screenA) ∧
    widthSpec screenA = ratioSpec screenA * heightSpec screenA ∧
    0 < heightSpec screenA ∧ 0 < widthSpec screenA ∧
    (screenA.resolution.1 = screenA.resolution.2 →
      widthSpec screenA = heightSpec screenA) :=
  C3_width_height_formulas screenA screenA_valid

/-- **C4 counterexample.** In the concrete scenario the computed width is not
approximately 598.67 mm: the computed value (≈ 597.73 mm) differs from 598.67 by
more than 0.9 mm, far beyond either stated tolerance (0.5 mm or 0.01). -/
theorem C4_cex_width_not_598_67 :
    ∃ w, screenA.width? = some w ∧ 0.9 < 598.67 - w ∧ ¬|w - 598.67| ≤ 1 / 2 := by
  have hb := widthSpec_screenA_bounds
  refine ⟨widthSpec screenA, Screen.width?_eq screenA_valid, by linarith [hb.2], ?_⟩
  rw [not_le]
  calc (1 : ℝ) / 2 < 598.67 - widthSpec screenA := by linarith [hb.2]
    _ ≤ |598.67 - widthSpec screenA| := le_abs_self _
    _ = |widthSpec screenA - 598.67| := abs_sub_comm _ _

/-- **C4 (amended).** For diagonal 27, resolution (1920, 1080), distance 600,
curvature absent, scaling 1: the computed width is within 0.01 of 597.73 mm
(not 598.67 mm) and the computed height within 0.01 of 336.22 mm (not 336.4 mm);
the width is, as the spec also states, within 0.5 mm of 598.0 mm. -/
theorem C4_concrete_scenario :
    ∃ w hgt, screenA.width? = some w ∧ screenA.height? = some hgt ∧
      |w - 597.73| < 0.01 ∧ |hgt - 336.22| < 0.01 ∧ |w - 598| < 1 / 2 := by
  have hw := widthSpec_screenA_bounds
  have hh := heightSpec_screenA_bounds
  refine ⟨widthSpec screenA, heightSpec screenA, Screen.width?_eq screenA_valid,
    Screen.height?_eq screenA_valid, ?_, ?_, ?_⟩ <;>
    rw [abs_lt] <;> constructor <;> linarith [hw.1, hw.2, hh.1, hh.2]

theorem degrees_two_arctan_lt (q : ℝ) : degrees (2 * Real.arctan q) < 180 := by
  have h1 := Real.arctan_lt_pi_div_two q
  have hd : (0 : ℝ) < 180 / Real.pi := by positivity
  have hπt : Real.pi * (180 / Real.pi) = 180 := by field_simp
  unfold degrees
  nlinarith

theorem neg_lt_degrees_two_arctan (q : ℝ) : -180 < degrees (2 * Real.arctan q) := by
  have h1 := Real.neg_pi_div_two_lt_arctan q
  have hd : (0 : ℝ) < 180 / Real.pi := by positivity
  have hπt : Real.pi * (180 / Real.pi) = 180 := by field_simp
  unfold degrees
  nlinarith

/-- **C5 (amended).** For a validly constructed screen with strictly positive
curvature, whenever `distance ≠ arcDepth` (otherwise the source divides by zero),
`fov_horizontal` equals the spec's curved-arc formula with 360° added when the
raw angle is negative, and the returned value lies in the half-open interval
[0, 360) — it can be exactly 0 when the arc closes on itself (`arcWidth = 0`),
so the claimed open interval (0, 360) is corrected to [0, 360). -/
theorem C5_fov_horizontal_curved (s : Screen) (h : s.Valid) (c : ℝ)
    (hc : s.curvature = some c) (hc0 : 0 < c) (haed : arcEndDistanceSpec s c ≠ 0) :
    s.fov_horizontal? = some (fovCurvedSpec s c) ∧
    0 ≤ fovCurvedSpec s c ∧ fovCurvedSpec s c < 360 := by
  refine ⟨Screen.fov_horizontal?_curved h hc hc0.ne' haed, ?_, ?_⟩
  · simp only [fovCurvedSpec]
    split_ifs with hang
    · exact hang
    · have := neg_lt_degrees_two_arctan (arcWidthSpec s c / 2 / arcEndDistanceSpec s c)
      linarith
  · simp only [fovCurvedSpec]
    split_ifs with hang
    · have := degrees_two_arctan_lt (arcWidthSpec s c / 2 / arcEndDistanceSpec s c)
      linarith
    · push_neg at hang
      linarith

/-- **C5 witness.** The amended statement evaluated on the degenerate full-circle
curved screen. -/
theorem C5_fov_horizontal_curved_witness :
    screenC.fov_horizontal? = some (fovCurvedSpec screenC curvC) ∧
    0 ≤ fovCurvedSpec screenC curvC ∧ fovCurvedSpec screenC curvC < 360 :=
  C5_fov_horizontal_curved screenC screenC_valid curvC rfl curvC_pos
    arcEndDistance_screenC

/-- **C5 counterexample.** A valid screen with strictly positive curvature whose
`fov_horizontal` is exactly 0 — outside the claimed open interval (0, 360):
`screenA` bent to a full circle (`arcAngle = 2π`, so `arcWidth = 0`). -/
theorem C5_cex_fov_zero :
    screenC.Valid ∧ screenC.curvature = some curvC ∧ 0 < curvC ∧
      screenC.fov_horizontal? = some 0 ∧ ¬∀ v ∈ screenC.fov_horizontal?, 0 < v := by
  refine ⟨screenC_valid, rfl, curvC_pos, fov_screenC, ?_⟩
  rw [fov_screenC]
  simp

/-- **C6.** For every validly constructed screen, flat or curved, `fov_vertical`
is `degrees(2 * atan(height/2 / distance))`; any two screens agreeing on
diagonal, resolution, distance and scaling — in particular two differing only in
curvature — have identical `fov_vertical`. -/
theorem C6_fov_vertical (s : Screen) (h : s.Valid) :
    s.fov_vertical? = some (degrees (2 * Real.arctan (heightSpec s / 2 / s.distance))) ∧
    ∀ t : Screen, t.diagonal = s.diagonal → t.resolution = s.resolution →
      t.distance = s.distance → t.scaling = s.scaling →
      t.fov_vertical? = s.fov_vertical? := by
  refine ⟨s.fov_vertical?_eq h, ?_⟩
  intro t h1 h2 h3 _h4
  unfold Screen.fov_vertical? Screen.height?
  rw [h1, h2, h3]

/-- **C6 witness.** The vertical-FOV formula evaluated on the scenario screen. -/
theorem C6_fov_vertical_witness :
    screenA.fov_vertical? =
      some (degrees (2 * Real.arctan (heightSpec screenA / 2 / screenA.distance))) ∧
    ∀ t : Screen, t.diagonal = screenA.diagonal → t.resolution = screenA.resolution →
      t.distance = screenA.distance → t.scaling = screenA.scaling →
      t.fov_vertical? = screenA.fov_vertical? :=
  C6_fov_vertical screenA screenA_valid

theorem screenD_valid : screenD.Valid := by
  refine ⟨by norm_num [screenD], by norm_num [screenD], by norm_num [screenD],
    by norm_num [screenD], ?_, by norm_num [screenD]⟩
  simp [screenD]

theorem screenE_valid : screenE.Valid := by
  refine ⟨by norm_num [screenE], by norm_num [screenE], by norm_num [screenE],
    by norm_num [screenE], ?_, by norm_num [screenE]⟩
  simp [screenE]

theorem arctan_lt_self {x : ℝ} (hx : 0 < x) : Real.arctan x < x := by
  have h1 : 0 < Real.arctan x := arctan_pos_of_pos hx
  have h2 := Real.arctan_lt_pi_div_two x
  have h3 := Real.lt_tan h1 h2
  rwa [Real.tan_arctan] at h3

theorem fovFlatSpec_lt_of_dist {w d₁ d₂ : ℝ} (hw : 0 < w) (h1 : 0 < d₁)
    (h12 : d₁ < d₂) : fovFlatSpec w d₂ < fovFlatSpec w d₁ := by
  unfold fovFlatSpec
  apply degrees_lt_degrees
  apply mul_lt_mul_of_pos_left _ (by norm_num : (0 : ℝ) < 2)
  exact Real.arctan_strictMono (div_lt_div_of_pos_left (by positivity) h1 h12)

/-- **C7.** For flat screens with the other parameters fixed, `fov_horizontal`
strictly decreases as distance increases and strictly increases as width
increases; for the 27-inch 1920×1080 flat panel it exceeds 90° at 50 mm and is
below 10° at 5000 mm. -/
theorem C7_fov_monotonicity_and_boundary :
    (∀ s t : Screen, s.Valid → t.Valid → s.curvature = none → t.curvature = none →
      t.diagonal = s.diagonal → t.resolution = s.resolution →
      s.distance < t.distance →
      ∀ a b, s.fov_horizontal? = some a → t.fov_horizontal? = some b → b < a) ∧
    (∀ w₁ w₂ d : ℝ, 0 < w₁ → w₁ < w₂ → 0 < d →
      fovFlatSpec w₁ d < fovFlatSpec w₂ d) ∧
    (∃ v, screenD.fov_horizontal? = some v ∧ 90 < v) ∧
    (∃ v, screenE.fov_horizontal? = some v ∧ v < 10) := by
  refine ⟨?_, ?_, ?_, ?_⟩
  · intro s t hs ht hcs hct hd hr hdist a b ha hb
    rw [s.fov_horizontal?_flat hs hcs, Option.some_inj] at ha
    rw [t.fov_horizontal?_flat ht hct, Option.some_inj] at hb
    have hw : widthSpec t = widthSpec s := by
      unfold widthSpec heightSpec ratioSpec
      rw [hd, hr]
    rw [← ha, ← hb, hw]
    exact fovFlatSpec_lt_of_dist hs.widthSpec_pos hs.2.2.2.1 hdist
  · intro w₁ w₂ d h1 h12 hd
    unfold fovFlatSpec
    apply degrees_lt_degrees
    apply mul_lt_mul_of_pos_left _ (by norm_num : (0 : ℝ) < 2)
    apply Real.arctan_strictMono
    gcongr
  · refine ⟨_, screenD.fov_horizontal?_flat screenD_valid rfl, ?_⟩
    have hww : widthSpec screenD = widthSpec screenA := rfl
    have hdist : screenD.distance = (50 : ℝ) := rfl
    unfold fovFlatSpec
    rw [hww, hdist]
    have hw := widthSpec_screenA_bounds.1
    have hq : (1 : ℝ) < widthSpec screenA / 2 / 50 := by
      rw [div_div, lt_div_iff₀ (by norm_num)]
      linarith
    have hmono := Real.arctan_strictMono hq
    rw [Real.arctan_one] at hmono
    have h2 : 2 * (Real.pi / 4) < 2 * Real.arctan (widthSpec screenA / 2 / 50) := by
      linarith
    have h90 : degrees (2 * (Real.pi / 4)) = 90 := by
      unfold degrees
      field_simp
      ring
    linarith [degrees_lt_degrees h2, h90]
  · refine ⟨_, screenE.fov_horizontal?_flat screenE_valid rfl, ?_⟩
    have hww : widthSpec screenE = widthSpec screenA := rfl
    have hdist : screenE.distance = (5000 : ℝ) := rfl
    unfold fovFlatSpec
    rw [hww, hdist]
    have hw1 := widthSpec_screenA_bounds.1
    have hw2 := widthSpec_screenA_bounds.2
    have hwp : (0 : ℝ) < widthSpec screenA := by linarith
    have hq0 : (0 : ℝ) < widthSpec screenA / 2 / 5000 := by positivity
    have hqlt : widthSpec screenA / 2 / 5000 < 0.0598 := by
      rw [div_div, div_lt_iff₀ (by norm_num)]
      linarith
    have ha := arctan_lt_self hq0
    have hapos := arctan_pos_of_pos hq0
    have ht : 180 / Real.pi < 60 := by
      rw [div_lt_iff₀ Real.pi_pos]
      have := Real.pi_gt_three
      linarith
    have htpos : (0 : ℝ) < 180 / Real.pi := by positivity
    unfold degrees
    nlinarith [mul_lt_mul_of_pos_right ha htpos, mul_lt_mul_of_pos_left ht hapos]

/-- **C8.** For every validly constructed screen, `ppi_scaled = round(ppi/scaling)`;
when scaling = 1, `ppi_scaled = ppi` and `resolution_scaled = resolution`
(each axis rounded independently). -/
theorem C8_scaling_rounding (s : Screen) (h : s.Valid) :
    (∀ p, s.ppi? = some p → s.ppi_scaled? = some (pyRound ((p : ℝ) / s.scaling))) ∧
    (s.scaling = 1 → s.ppi_scaled? = s.ppi? ∧
      s.resolution_scaled? = some s.resolution) := by
  constructor
  · intro p hp
    exact s.ppi_scaled?_eq h hp
  · intro h1
    obtain ⟨p, hp⟩ : ∃ p, s.ppi? = some p := ⟨_, s.ppi?_eq h⟩
    constructor
    · rw [s.ppi_scaled?_eq h hp, h1, hp]
      simp [pyRound_intCast]
    · rw [s.resolution_scaled?_eq h, h1]
      simp [pyRound_intCast]

/-- **C8 witness.** The scaling identities evaluated on the scenario screen,
whose scaling factor is 1. -/
theorem C8_scaling_rounding_witness :
    (∀ p, screenA.ppi? = some p →
      screenA.ppi_scaled? = some (pyRound ((p : ℝ) / screenA.scaling))) ∧
    (screenA.scaling = 1 → screenA.ppi_scaled? = screenA.ppi? ∧
      screenA.resolution_scaled? = some screenA.resolution) :=
  C8_scaling_rounding screenA screenA_valid

/-- **C9.** For every validly constructed flat screen whose `ppi` is nonzero
(so that both quantities evaluate), `ppd_edge` is strictly greater than `ppd`:
the edge distance `sqrt(distance² + (width/2)²)` strictly exceeds `distance`,
so a pixel subtends a strictly smaller angle at the edge. -/
theorem C9_ppd_edge_gt_ppd (s : Screen) (h : s.Valid) (hc : s.curvature = none)
    (hppi : s.ppi? ≠ some 0) :
    ∃ p q, s.ppd? = some p ∧ s.ppd_edge? = some q ∧ p < q := by
  obtain ⟨n, hn⟩ : ∃ n, s.ppi? = some n := ⟨_, s.ppi?_eq h⟩
  have hne : n ≠ 0 := by
    rintro rfl
    exact hppi hn
  have hn0 : 0 < n := lt_of_le_of_ne (s.ppi?_nonneg h hn) (Ne.symm hne)
  rw [s.ppd?_eq h hn hn0, s.ppd_edge?_flat h hc hn hn0]
  refine ⟨_, _, rfl, rfl, ?_⟩
  have hnr : (0 : ℝ) < (n : ℝ) := by exact_mod_cast hn0
  have hps : (0 : ℝ) < 25.4 / (n : ℝ) := by positivity
  have hd : 0 < s.distance := h.2.2.2.1
  have hw := h.widthSpec_pos
  have hde : s.distance < Real.sqrt (s.distance ^ 2 + (widthSpec s / 2) ^ 2) := by
    rw [Real.lt_sqrt hd.le]
    nlinarith
  have hdepos : (0 : ℝ) < Real.sqrt (s.distance ^ 2 + (widthSpec s / 2) ^ 2) :=
    lt_trans hd hde
  have hq : 25.4 / (n : ℝ) / Real.sqrt (s.distance ^ 2 + (widthSpec s / 2) ^ 2) <
      25.4 / (n : ℝ) / s.distance := div_lt_div_of_pos_left hps hd hde
  have hedgepos : 0 < degrees (Real.arctan
      (25.4 / (n : ℝ) / Real.sqrt (s.distance ^ 2 + (widthSpec s / 2) ^ 2))) :=
    degrees_pos (arctan_pos_of_pos (by positivity))
  exact one_div_lt_one_div_of_lt hedgepos
    (degrees_lt_degrees (Real.arctan_strictMono hq))

/-- **C9 witness.** `ppd < ppd_edge` on the scenario screen, whose `ppi` is 82. -/
theorem C9_ppd_edge_gt_ppd_witness :
    ∃ p q, screenA.ppd? = some p ∧ screenA.ppd_edge? = some q ∧ p < q :=
  C9_ppd_edge_gt_ppd screenA screenA_valid rfl (by rw [ppi_screenA]; simp)

theorem screenF_valid : screenF.Valid := by
  refine ⟨by norm_num [screenF], by norm_num [screenF], by norm_num [screenF],
    by norm_num [screenF], ?_, by norm_num [screenF]⟩
  simp [screenF]

/-- **C10.** For any two validly constructed screens that differ at most in the
scaling factor, `width`, `height`, `size`, `ppi`, `pixel_size`, `fov_horizontal`,
`fov_vertical`, `ppd` and `ppd_edge` are identical: scaling influences only
`ppi_scaled` and `resolution_scaled`. -/
theorem C10_scaling_noninterference (s t : Screen) (_hs : s.Valid) (_ht : t.Valid)
    (hd : t.diagonal = s.diagonal) (hr : t.resolution = s.resolution)
    (hdist : t.distance = s.distance) (hc : t.curvature = s.curvature) :
    t.width? = s.width? ∧ t.height? = s.height? ∧ t.size? = s.size? ∧
    t.ppi? = s.ppi? ∧ t.pixel_size? = s.pixel_size? ∧
    t.fov_horizontal? = s.fov_horizontal? ∧ t.fov_vertical? = s.fov_vertical? ∧
    t.ppd? = s.ppd? ∧ t.ppd_edge? = s.ppd_edge? := by
  obtain ⟨d1, r1, dist1, c1, sc1⟩ := s
  obtain ⟨d2, r2, dist2, c2, sc2⟩ := t
  simp only at hd hr hdist hc
  subst hd hr hdist hc
  exact ⟨rfl, rfl, rfl, rfl, rfl, rfl, rfl, rfl, rfl⟩

/-- **C10 witness.** The scenario screen against the same screen with display
scaling 2 instead of 1. -/
theorem C10_scaling_noninterference_witness :
    screenF.width? = screenA.width? ∧ screenF.height? = screenA.height? ∧
    screenF.size? = screenA.size? ∧ screenF.ppi? = screenA.ppi? ∧
    screenF.pixel_size? = screenA.pixel_size? ∧
    screenF.fov_horizontal? = screenA.fov_horizontal? ∧
    screenF.fov_vertical? = screenA.fov_vertical? ∧
    screenF.ppd? = screenA.ppd? ∧ screenF.ppd_edge? = screenA.ppd_edge? :=
  C10_scaling_noninterference screenA screenF screenA_valid screenF_valid
    rfl rfl rfl rfl
